import Mathlib

/-!
Verification of the bucketing / batch-preparation layer of
`vllm/worker/habana_model_runner.py`.

The pure bucket-geometry functions (`warmup_range`, `next_pow2`, `round_up`,
`find_bucket`, `generate_decode_buckets`, `pad_list`) are embedded directly.
Python machine integers are unbounded, so `Nat` models them faithfully on the
non-negative inputs considered here; `Int` is used where a quantity may go
negative and `Rat` where the source computes with Python floats (exact
rational arithmetic replaces floating point, every operation involved being
+, -, *, /).
-/

/-- Source `round_up` (habana_model_runner.py line 174): `(value + k - 1) // k * k`. -/
def round_up (value k : Nat) : Nat :=
  (value + k - 1) / k * k

/-- The `while value > 1` loop of `next_pow2` (lines 166-171), made structural
with a fuel argument; the loop runs at most `value` times because ceiling
halving strictly decreases any `value > 1`, so fuel `value` is never
exhausted. -/
def next_pow2_go : Nat → Nat → Nat → Nat
  | 0, _, res => res
  | fuel + 1, value, res =>
    if 1 < value then next_pow2_go fuel ((value + 1) / 2) (res * 2) else res

/-- Source `next_pow2` (lines 166-171): `res = base`; `while value > 1: value =
(value + 1) // 2; res *= 2`; `return res`. -/
def next_pow2 (value base : Nat) : Nat :=
  next_pow2_go value value base

/-- Source `find_bucket` (lines 178-182): `bmin, bstep, _ = config`;
returns `max(bmin, min(round_up(value, bstep), next_pow2(value, bmin)))`. -/
def find_bucket (value : Nat) (config : Nat × Nat × Nat) : Nat :=
  let bmin := config.1
  let bstep := config.2.1
  max bmin (min (round_up value bstep) (next_pow2 value bmin))

/-- Python `range(start, stop, step)` over naturals: `start, start+step, ...`
strictly below `stop`; the element count is `ceil((stop - start) / step)`
(0 when `start ≥ stop`, matching truncated subtraction). -/
def pyRange (start stop step : Nat) : List Nat :=
  List.range' start ((stop - start + step - 1) / step) step

/-- The `itertools.takewhile`-bounded doubling ramp of `warmup_range`
(lines 142-144): starting from `x`, emit `x` and double while
`x < bstep ∧ x ≤ bmax`.  Structural fuel replaces the lazy stream; for any
start `x ≥ 1` the ramp has at most `bmax` elements (they are strictly
increasing and bounded by `bmax`), so fuel `bmax + 1` is never exhausted. -/
def ramp_up_go (bstep bmax : Nat) : Nat → Nat → List Nat
  | 0, _ => []
  | fuel + 1, x =>
    if x < bstep ∧ x ≤ bmax then x :: ramp_up_go bstep bmax fuel (x * 2)
    else []

/-- Source `warmup_range` (lines 140-146): the doubling ramp
`bmin, 2*bmin, 4*bmin, ...` (while `< bstep` and `≤ bmax`) followed by
`range(max(bmin, bstep), bmax + 1, bstep)`. -/
def warmup_range (config : Nat × Nat × Nat) : List Nat :=
  let bmin := config.1
  let bstep := config.2.1
  let bmax := config.2.2
  ramp_up_go bstep bmax (bmax + 1) bmin ++ pyRange (max bmin bstep) (bmax + 1) bstep

/-- Insertion step of a stable sort: insert `a` after every earlier element
`b` with `le b a`. -/
def insertSorted (le : α → α → Bool) (a : α) : List α → List α
  | [] => [a]
  | b :: l => if le b a then b :: insertSorted le a l else a :: b :: l

/-- Stable insertion sort, modelling Python `sorted` (any two stable sorts
under the same total preorder produce the same list). -/
def sortStable (le : α → α → Bool) : List α → List α
  | [] => []
  | a :: l => insertSorted le a (sortStable le l)

/-- The sort key `lambda b: (b[0] * b[1], b[1], b[0])` of
`generate_decode_buckets` (line 163), as a boolean total preorder. -/
def bucket_key_le (a b : Nat × Nat) : Bool :=
  a.1 * a.2 < b.1 * b.2 ||
    (a.1 * a.2 == b.1 * b.2 &&
      (a.2 < b.2 || (a.2 == b.2 && a.1 ≤ b.1)))

/-- Inner loop of `generate_decode_buckets` (lines 157-162) for a fixed
`bs`: `continue` when `blocks < bs`, `break` when `blocks > max_blocks`,
otherwise emit `(bs, blocks)`. -/
def decode_buckets_inner (bs max_blocks : Nat) : List Nat → List (Nat × Nat)
  | [] => []
  | blocks :: rest =>
    if blocks < bs then decode_buckets_inner bs max_blocks rest
    else if max_blocks < blocks then []
    else (bs, blocks) :: decode_buckets_inner bs max_blocks rest

/-- Source `generate_decode_buckets` (lines 154-163): nested loops over the two
warm-up ranges with the skip/break logic, then sorted by
`(bs * blocks, blocks, bs)`. -/
def generate_decode_buckets (bs_bucket_config blocks_bucket_config : Nat × Nat × Nat)
    (max_blocks : Nat) : List (Nat × Nat) :=
  sortStable bucket_key_le
    (List.flatten ((warmup_range bs_bucket_config).map
      (fun bs => decode_buckets_inner bs max_blocks (warmup_range blocks_bucket_config))))

/-- Source `pad_list` (lines 195-198): pad `l` with `v` up to `round_up(len(l), k)`. -/
def pad_list (l : List α) (k : Nat) (v : α) : List α :=
  l ++ List.replicate (round_up l.length k - l.length) v

/-- The driver-side batch padding of `execute_model` (lines 923-928): the
batch is extended with copies of its first element until its length reaches
`find_bucket(real_batch_size, bucket_cfg)`. -/
def execute_model_pad_batch (seq_group_metadata_list : List α)
    (bucket_cfg : Nat × Nat × Nat) : List α :=
  match seq_group_metadata_list with
  | [] => []
  | x :: xs =>
    (x :: xs) ++
      List.replicate (find_bucket (x :: xs).length bucket_cfg - (x :: xs).length) x

/-! ### Arithmetic facts about the bucket-geometry functions -/

theorem next_pow2_go_eq : ∀ (fuel v b : Nat), v ≤ fuel →
    next_pow2_go fuel v b = b * 2 ^ Nat.clog 2 v := by
  intro fuel
  induction fuel with
  | zero =>
    intro v b hv
    obtain rfl : v = 0 := Nat.le_zero.mp hv
    simp [next_pow2_go]
  | succ n ih =>
    intro v b hv
    by_cases h : 1 < v
    · have hrec : (v + 1) / 2 ≤ n := by omega
      have hc : Nat.clog 2 v = Nat.clog 2 ((v + 1) / 2) + 1 := by
        have h2 := Nat.clog_of_two_le (b := 2) (n := v) (by norm_num) h
        have e : v + 2 - 1 = v + 1 := by omega
        rwa [e] at h2
      simp only [next_pow2_go, if_pos h]
      rw [ih _ _ hrec, hc, pow_succ]
      ring
    · simp only [next_pow2_go, if_neg h]
      rw [Nat.clog_of_right_le_one (by omega), pow_zero, Nat.mul_one]

/-- Closed form of the halving/doubling loop: `next_pow2 value base =
base * 2 ^ ceil(log2 value)`, the ceiling log being `Nat.clog 2`. -/
theorem next_pow2_closed (value base : Nat) :
    next_pow2 value base = base * 2 ^ Nat.clog 2 value :=
  next_pow2_go_eq value value base le_rfl

theorem le_next_pow2 (value base : Nat) (hbase : 1 ≤ base) :
    value ≤ next_pow2 value base := by
  rw [next_pow2_closed]
  calc value ≤ 2 ^ Nat.clog 2 value := Nat.le_pow_clog (by norm_num) _
    _ ≤ base * 2 ^ Nat.clog 2 value := Nat.le_mul_of_pos_left _ hbase

theorem next_pow2_mono (base : Nat) {v w : Nat} (hvw : v ≤ w) :
    next_pow2 v base ≤ next_pow2 w base := by
  rw [next_pow2_closed, next_pow2_closed]
  exact Nat.mul_le_mul_left base
    (Nat.pow_le_pow_right (by norm_num) (Nat.clog_mono_right 2 hvw))

theorem le_round_up (value k : Nat) (hk : 1 ≤ k) : value ≤ round_up value k := by
  unfold round_up
  by_contra hcon
  push_neg at hcon
  have h2 : ((value + k - 1) / k + 1) * k ≤ value + k - 1 := by
    rw [Nat.add_mul, Nat.one_mul]
    omega
  have h3 : (value + k - 1) / k + 1 ≤ (value + k - 1) / k :=
    (Nat.le_div_iff_mul_le (by omega)).mpr h2
  omega

theorem round_up_mono (k : Nat) {v w : Nat} (hvw : v ≤ w) :
    round_up v k ≤ round_up w k :=
  Nat.mul_le_mul_right k (Nat.div_le_div_right (by omega))

/-- C2 helper: `find_bucket` dominates its argument once the floor and step
are positive. -/
theorem le_find_bucket (value bmin bstep bmax : Nat) (hmin : 1 ≤ bmin)
    (hstep : 1 ≤ bstep) : value ≤ find_bucket value (bmin, bstep, bmax) := by
  unfold find_bucket
  exact le_trans (le_min (le_round_up value bstep hstep)
    (le_next_pow2 value bmin hmin)) (le_max_right _ _)

/-! ### Claim theorems about the pure bucket geometry -/

/-- C1: for `value ≥ 1` and a config with `min ≥ 1`, `step ≥ 1`,
`find_bucket(value, config)` equals
`max(min, min(round_up(value, step), next_pow2(value, min)))`;
with config `(32, 32, 64)` it maps 40 to 64 and 24 to 32, and the driver-side
batch padding of `execute_model` extends a 40-element (resp. 24-element)
batch to exactly 64 (resp. 32) entries. -/
theorem find_bucket_spec :
    (∀ (value bmin bstep bmax : Nat), 1 ≤ value → 1 ≤ bmin → 1 ≤ bstep →
      find_bucket value (bmin, bstep, bmax)
        = max bmin (min (round_up value bstep) (next_pow2 value bmin))) ∧
    find_bucket 40 (32, 32, 64) = 64 ∧
    find_bucket 24 (32, 32, 64) = 32 ∧
    (∀ (α : Type) (l : List α), l.length = 40 →
      (execute_model_pad_batch l (32, 32, 64)).length = 64) ∧
    (∀ (α : Type) (l : List α), l.length = 24 →
      (execute_model_pad_batch l (32, 32, 64)).length = 32) := by
  refine ⟨fun _ _ _ _ _ _ _ => rfl, by decide, by decide, ?_, ?_⟩
  · intro α l hl
    match l with
    | [] => simp at hl
    | x :: xs =>
      simp only [execute_model_pad_batch, List.length_append, List.length_replicate, hl]
      decide
  · intro α l hl
    match l with
    | [] => simp at hl
    | x :: xs =>
      simp only [execute_model_pad_batch, List.length_append, List.length_replicate, hl]
      decide

theorem find_bucket_spec_witness :
    (find_bucket 5 (2, 3, 100)
      = max 2 (min (round_up 5 3) (next_pow2 5 2))) ∧
    (execute_model_pad_batch (List.replicate 40 (0 : Nat)) (32, 32, 64)).length = 64 :=
  ⟨find_bucket_spec.1 5 2 3 100 (by decide) (by decide) (by decide),
   find_bucket_spec.2.2.2.1 Nat (List.replicate 40 0) (by decide)⟩

/-- C2: with `min ≥ 1` and `step ≥ 1`, `find_bucket` is monotonically
non-decreasing in its value argument, its result is at least `min` for every
`value ≥ 1`, and its result is at least `value` for every `value ≥ 1`. -/
theorem find_bucket_monotone_and_bounds (bmin bstep bmax : Nat)
    (hmin : 1 ≤ bmin) (hstep : 1 ≤ bstep) :
    (∀ v w, v ≤ w →
      find_bucket v (bmin, bstep, bmax) ≤ find_bucket w (bmin, bstep, bmax)) ∧
    (∀ v, 1 ≤ v → bmin ≤ find_bucket v (bmin, bstep, bmax)) ∧
    (∀ v, 1 ≤ v → v ≤ find_bucket v (bmin, bstep, bmax)) := by
  refine ⟨fun v w hvw => ?_, fun v _ => le_max_left _ _,
    fun v _ => le_find_bucket v bmin bstep bmax hmin hstep⟩
  exact max_le_max le_rfl
    (min_le_min (round_up_mono bstep hvw) (next_pow2_mono bmin hvw))

theorem find_bucket_monotone_and_bounds_witness :
    find_bucket 24 (32, 32, 64) ≤ find_bucket 40 (32, 32, 64) ∧
    32 ≤ find_bucket 24 (32, 32, 64) ∧
    40 ≤ find_bucket 40 (32, 32, 64) :=
  ⟨(find_bucket_monotone_and_bounds 32 32 64 (by decide) (by decide)).1 24 40 (by decide),
   (find_bucket_monotone_and_bounds 32 32 64 (by decide) (by decide)).2.1 24 (by decide),
   (find_bucket_monotone_and_bounds 32 32 64 (by decide) (by decide)).2.2 40 (by decide)⟩

/-- C3: `next_pow2(value, base)` is total and equals
`base * 2 ^ k` with `k = ceil(log2 value)` (`Nat.clog 2 value`), and equals
`base` whenever `value ≤ 1` (where `k = 0`). -/
theorem next_pow2_spec (value base : Nat) (hv : 1 ≤ value) (hb : 1 ≤ base) :
    next_pow2 value base = base * 2 ^ Nat.clog 2 value ∧
    (value ≤ 1 → Nat.clog 2 value = 0 ∧ next_pow2 value base = base) := by
  refine ⟨next_pow2_closed value base, fun h1 => ?_⟩
  have hc : Nat.clog 2 value = 0 := Nat.clog_of_right_le_one h1 2
  refine ⟨hc, ?_⟩
  rw [next_pow2_closed, hc, pow_zero, Nat.mul_one]

theorem next_pow2_spec_witness :
    next_pow2 1 7 = 7 * 2 ^ Nat.clog 2 1 ∧
    (1 ≤ 1 → Nat.clog 2 1 = 0 ∧ next_pow2 1 7 = 7) :=
  next_pow2_spec 1 7 (by decide) (by decide)

/-- C10: `find_bucket` never reads the `max` field of its config — any two
configs agreeing on `min` and `step` give identical results for every value —
and consequently for `value = max + step` (with `max` a multiple of `step`,
`min ≥ 1`, `step ≥ 1`) the returned bucket strictly exceeds `config.max`. -/
theorem find_bucket_ignores_max :
    (∀ (value bmin bstep bmax bmax' : Nat),
      find_bucket value (bmin, bstep, bmax) = find_bucket value (bmin, bstep, bmax')) ∧
    (∀ (bmin bstep bmax : Nat), 1 ≤ bmin → 1 ≤ bstep → bstep ∣ bmax →
      bmax < bmax + bstep ∧
      bmax < find_bucket (bmax + bstep) (bmin, bstep, bmax)) := by
  refine ⟨fun _ _ _ _ _ => rfl, fun bmin bstep bmax hmin hstep _ => ?_⟩
  have h1 : bmax < bmax + bstep := by omega
  exact ⟨h1, lt_of_lt_of_le h1 (le_find_bucket _ bmin bstep bmax hmin hstep)⟩

theorem find_bucket_ignores_max_witness :
    (64 : Nat) < 64 + 32 ∧ 64 < find_bucket (64 + 32) (32, 32, 64) :=
  find_bucket_ignores_max.2 32 32 64 (by decide) (by decide) (by decide)

/-! ### warmup_range and generate_decode_buckets -/

theorem mem_ramp_up_go (bstep bmax : Nat) :
    ∀ (fuel x y : Nat), y ∈ ramp_up_go bstep bmax fuel x → x ≤ y ∧ y < bstep := by
  intro fuel
  induction fuel with
  | zero => intro x y hy; simp [ramp_up_go] at hy
  | succ n ih =>
    intro x y hy
    simp only [ramp_up_go] at hy
    by_cases h : x < bstep ∧ x ≤ bmax
    · rw [if_pos h] at hy
      rcases List.mem_cons.mp hy with rfl | hy'
      · exact ⟨le_rfl, h.1⟩
      · have h2 := ih (x * 2) y hy'
        exact ⟨le_trans (by omega) h2.1, h2.2⟩
    · rw [if_neg h] at hy
      simp at hy

theorem pairwise_ramp_up_go (bstep bmax : Nat) :
    ∀ (fuel x : Nat), 1 ≤ x →
      List.Pairwise (· < ·) (ramp_up_go bstep bmax fuel x) := by
  intro fuel
  induction fuel with
  | zero => intro x _; simp [ramp_up_go]
  | succ n ih =>
    intro x hx
    simp only [ramp_up_go]
    by_cases h : x < bstep ∧ x ≤ bmax
    · rw [if_pos h]
      refine List.Pairwise.cons (fun y hy => ?_) (ih (x * 2) (by omega))
      have h2 := (mem_ramp_up_go bstep bmax n (x * 2) y hy).1
      omega
    · rw [if_neg h]
      exact List.Pairwise.nil

/-- C4: `warmup_range((1, 128, 1024))` is exactly the doubling ramp followed
by the 128-step arithmetic sequence, and for any config with
`1 ≤ min ≤ max`, `step ≥ 1` the produced (finite) list is strictly
increasing. -/
theorem warmup_range_spec :
    warmup_range (1, 128, 1024) =
      [1, 2, 4, 8, 16, 32, 64, 128, 256, 384, 512, 640, 768, 896, 1024] ∧
    ∀ (bmin bstep bmax : Nat), 1 ≤ bmin → bmin ≤ bmax → 1 ≤ bstep →
      List.Pairwise (· < ·) (warmup_range (bmin, bstep, bmax)) := by
  refine ⟨by decide, fun bmin bstep bmax h1 _ h3 => ?_⟩
  simp only [warmup_range, pyRange]
  rw [List.pairwise_append]
  refine ⟨pairwise_ramp_up_go _ _ _ _ h1,
    List.pairwise_lt_range' _ _ _ (by omega), fun a ha b hb => ?_⟩
  have ha' := (mem_ramp_up_go _ _ _ _ a ha).2
  have hb' : max bmin bstep ≤ b := by
    rw [List.mem_range'] at hb
    obtain ⟨i, _, rfl⟩ := hb
    omega
  have hc : bstep ≤ max bmin bstep := le_max_right _ _
  omega

theorem warmup_range_spec_witness :
    List.Pairwise (· < ·) (warmup_range (2, 3, 10)) :=
  warmup_range_spec.2 2 3 10 (by decide) (by decide) (by decide)

theorem mem_insertSorted {α : Type} (le : α → α → Bool) (a x : α) :
    ∀ l, x ∈ insertSorted le a l ↔ x = a ∨ x ∈ l := by
  intro l
  induction l with
  | nil => simp [insertSorted]
  | cons b rest ih =>
    simp only [insertSorted]
    by_cases h : le b a
    · rw [if_pos h]
      simp only [List.mem_cons, ih]
      tauto
    · rw [if_neg h]
      simp only [List.mem_cons]

theorem mem_sortStable {α : Type} (le : α → α → Bool) (x : α) :
    ∀ l, x ∈ sortStable le l ↔ x ∈ l := by
  intro l
  induction l with
  | nil => simp [sortStable]
  | cons a rest ih =>
    simp only [sortStable, mem_insertSorted, ih, List.mem_cons]

theorem mem_decode_buckets_inner (bs max_blocks : Nat) :
    ∀ (l : List Nat) (p : Nat × Nat), p ∈ decode_buckets_inner bs max_blocks l →
      bs ≤ p.2 ∧ p.2 ≤ max_blocks ∧ p.1 = bs := by
  intro l
  induction l with
  | nil => intro p hp; simp [decode_buckets_inner] at hp
  | cons b rest ih =>
    intro p hp
    simp only [decode_buckets_inner] at hp
    by_cases h1 : b < bs
    · rw [if_pos h1] at hp
      exact ih p hp
    · rw [if_neg h1] at hp
      by_cases h2 : max_blocks < b
      · rw [if_pos h2] at hp
        simp at hp
      · rw [if_neg h2] at hp
        rcases List.mem_cons.mp hp with rfl | hp'
        · exact ⟨by omega, by omega, rfl⟩
        · exact ih p hp'

/-- C5: with well-formed configs (`min ≥ 1`, `step ≥ 1`, `min ≤ max`) and
`max_blocks ≥ 1`, every pair `(bs, blocks)` emitted by
`generate_decode_buckets` satisfies `bs ≤ blocks` and `blocks ≤ max_blocks`. -/
theorem generate_decode_buckets_spec (bs_cfg blocks_cfg : Nat × Nat × Nat)
    (max_blocks : Nat)
    (hbs1 : 1 ≤ bs_cfg.1) (hbs2 : 1 ≤ bs_cfg.2.1) (hbs3 : bs_cfg.1 ≤ bs_cfg.2.2)
    (hbl1 : 1 ≤ blocks_cfg.1) (hbl2 : 1 ≤ blocks_cfg.2.1)
    (hbl3 : blocks_cfg.1 ≤ blocks_cfg.2.2) (hmb : 1 ≤ max_blocks) :
    ∀ p ∈ generate_decode_buckets bs_cfg blocks_cfg max_blocks,
      p.1 ≤ p.2 ∧ p.2 ≤ max_blocks := by
  intro p hp
  unfold generate_decode_buckets at hp
  rw [mem_sortStable, List.mem_flatten] at hp
  obtain ⟨l, hl, hpl⟩ := hp
  rw [List.mem_map] at hl
  obtain ⟨bs, _, rfl⟩ := hl
  have h := mem_decode_buckets_inner bs max_blocks _ p hpl
  exact ⟨h.2.2 ▸ h.1, h.2.1⟩

theorem generate_decode_buckets_spec_witness :
    (1, 1) ∈ generate_decode_buckets (1, 1, 2) (1, 1, 2) 2 ∧ (1 ≤ 1 ∧ 1 ≤ 2) := by
  refine ⟨by decide, ?_⟩
  exact generate_decode_buckets_spec (1, 1, 2) (1, 1, 2) 2 (by decide) (by decide)
    (by decide) (by decide) (by decide) (by decide) (by decide) (1, 1) (by decide)

/-! ### The driver-side mixed-batch checks of `prepare_input_tensors` -/

/-- Source `BatchType` (lines 306-313). -/
inductive BatchType
  | PREFILL
  | DECODE
  | MIXED
deriving DecidableEq

/-- The fields of a `SequenceGroupMetadata` consumed by the driver-side
partition checks of `prepare_input_tensors` (lines 721-796): the phase flag
and the number of sequences in the group (`len(seq_data)`, each decode-phase
sequence contributing one entry to `decode_input_tokens`). -/
structure SeqGroupMeta where
  is_prompt : Bool
  num_seqs : Nat
deriving DecidableEq

/-- Driver-side control flow of `prepare_input_tensors` (lines 721-796),
restricted to the quantities the batch-type checks consume: the partition
into `prefill_reqs`/`decode_reqs` (lines 722-728), `num_prefills =
len(seq_lens)` (one entry per prompt-phase group),
`num_decode_tokens = len(decode_input_tokens)` (one entry per decode-phase
sequence), and attention metadata that is non-`None` exactly when the
corresponding sublist is non-empty.  Each `assert` / `raise` on this path
becomes an `Except.error`: the `assert (len(prefill_reqs) and
len(decode_reqs)) == 0` guard (lines 756-757), the
`"HPU does not support mixed batches!"` assert (line 764), and the
`NotImplementedError("Mixed batch is not supported on HPU")` raise
(lines 789-792).  Error paths internal to the abstracted tensor
construction are dropped, which only enlarges the set of normally-returning
inputs.  All three checks precede the `broadcast_tensor_dict` call
(line 817), so an error also means nothing was broadcast. -/
def prefill_reqs (seq_group_metadata_list : List SeqGroupMeta) : List SeqGroupMeta :=
  seq_group_metadata_list.filter (fun r => r.is_prompt)

def decode_reqs (seq_group_metadata_list : List SeqGroupMeta) : List SeqGroupMeta :=
  seq_group_metadata_list.filter (fun r => !r.is_prompt)

/-- Source quantity `num_decode_tokens = len(decode_input_tokens)` (line 761): one entry per
decode-phase sequence, i.e. per `seq_id` of each decode-phase group. -/
def num_decode_tokens (seq_group_metadata_list : List SeqGroupMeta) : Nat :=
  ((decode_reqs seq_group_metadata_list).map (fun r => r.num_seqs)).sum

def prepare_input_tensors (chunked_prefill_enabled : Bool)
    (seq_group_metadata_list : List SeqGroupMeta) : Except String BatchType :=
  if chunked_prefill_enabled = false ∧
      ¬((prefill_reqs seq_group_metadata_list).length = 0 ∨
        (decode_reqs seq_group_metadata_list).length = 0) then
    Except.error "assert (len(prefill_reqs) and len(decode_reqs)) == 0"
  else if ¬(((prefill_reqs seq_group_metadata_list).length = 0 ∧
        0 < num_decode_tokens seq_group_metadata_list) ∨
      (0 < (prefill_reqs seq_group_metadata_list).length ∧
        num_decode_tokens seq_group_metadata_list = 0)) then
    Except.error "HPU does not support mixed batches!"
  else if prefill_reqs seq_group_metadata_list ≠ [] ∧
      decode_reqs seq_group_metadata_list ≠ [] then
    Except.error "Mixed batch is not supported on HPU"
  else if prefill_reqs seq_group_metadata_list ≠ [] then
    Except.ok BatchType.PREFILL
  else
    Except.ok BatchType.DECODE

/-- C6: on the driver worker, `prepare_input_tensors` raises whenever the
partition of the request list leaves both the prompt-phase and decode-phase
subsets non-empty (before any broadcast), and it returns normally only when
exactly one of the two subsets is non-empty. -/
theorem prepare_input_tensors_mixed_batch (chunked : Bool)
    (reqs : List SeqGroupMeta) :
    (prefill_reqs reqs ≠ [] → decode_reqs reqs ≠ [] →
      ∃ e, prepare_input_tensors chunked reqs = Except.error e) ∧
    (∀ bt, prepare_input_tensors chunked reqs = Except.ok bt →
      (prefill_reqs reqs ≠ [] ∧ decode_reqs reqs = []) ∨
      (prefill_reqs reqs = [] ∧ decode_reqs reqs ≠ [])) := by
  unfold prepare_input_tensors
  by_cases h1 : chunked = false ∧
      ¬((prefill_reqs reqs).length = 0 ∨ (decode_reqs reqs).length = 0)
  · rw [if_pos h1]
    exact ⟨fun _ _ => ⟨_, rfl⟩, fun bt hbt => by simp at hbt⟩
  · rw [if_neg h1]
    by_cases h2 : ¬(((prefill_reqs reqs).length = 0 ∧ 0 < num_decode_tokens reqs) ∨
        (0 < (prefill_reqs reqs).length ∧ num_decode_tokens reqs = 0))
    · rw [if_pos h2]
      exact ⟨fun _ _ => ⟨_, rfl⟩, fun bt hbt => by simp at hbt⟩
    · rw [if_neg h2]
      push_neg at h2
      by_cases h3 : prefill_reqs reqs ≠ [] ∧ decode_reqs reqs ≠ []
      · rw [if_pos h3]
        exact ⟨fun _ _ => ⟨_, rfl⟩, fun bt hbt => by simp at hbt⟩
      · rw [if_neg h3]
        refine ⟨fun hpne hdne => absurd ⟨hpne, hdne⟩ h3, fun bt _ => ?_⟩
        by_cases h4 : prefill_reqs reqs ≠ []
        · refine Or.inl ⟨h4, ?_⟩
          by_contra hdne
          exact h3 ⟨h4, hdne⟩
        · push_neg at h4
          refine Or.inr ⟨h4, fun hdnil => ?_⟩
          rcases h2 with ⟨_, hsum⟩ | ⟨hlen, _⟩
          · rw [num_decode_tokens, hdnil] at hsum
            simp at hsum
          · rw [h4] at hlen
            simp at hlen

theorem prepare_input_tensors_mixed_batch_witness :
    (∃ e, prepare_input_tensors false [⟨true, 1⟩, ⟨false, 1⟩] = Except.error e) ∧
    ((prefill_reqs [⟨true, 1⟩] ≠ [] ∧ decode_reqs [⟨true, 1⟩] = []) ∨
      (prefill_reqs [⟨true, 1⟩] = [] ∧ decode_reqs [⟨true, 1⟩] ≠ [])) :=
  ⟨(prepare_input_tensors_mixed_batch false [⟨true, 1⟩, ⟨false, 1⟩]).1
      (by decide) (by decide),
   (prepare_input_tensors_mixed_batch false [⟨true, 1⟩]).2 BatchType.PREFILL (by rfl)⟩

/-! ### The pad-slot sentinel -/

/-- Source constant `_PAD_SLOT_ID` (line 42): the reserved pad sentinel of this source is 0. -/
def _PAD_SLOT_ID : Nat := 0

/-- Slot computation for a real token in `_prepare_prompt` (lines 555-557):
`block_number = block_table[i // block_size]`,
`slot = block_number * block_size + i % block_size`.  Out-of-range indexing,
which raises in Python, is modelled by default value 0. -/
def slot_for (block_table : List Nat) (block_size i : Nat) : Nat :=
  block_table.getD (i / block_size) 0 * block_size + i % block_size

/-- C9 counterexample: the sentinel `_PAD_SLOT_ID = 0` IS a physical cache
slot — the slot computed for the real, in-bounds token at position 0 of a
sequence whose first cache block is block 0 equals the sentinel. -/
theorem pad_slot_sentinel_counterexample :
    0 / 16 < ([0] : List Nat).length ∧ slot_for [0] 16 0 = _PAD_SLOT_ID := by decide

/-- C9 amended: the sentinel coincides exactly with the slot
`(block 0, offset 0)`: for `block_size ≥ 1` a computed slot equals
`_PAD_SLOT_ID` iff its block number and its offset within the block are both
zero; in particular, any token whose block number is positive gets a slot
distinct from the sentinel. -/
theorem pad_slot_sentinel_amended (block_table : List Nat) (block_size i : Nat)
    (hbs : 1 ≤ block_size) :
    (slot_for block_table block_size i = _PAD_SLOT_ID ↔
      block_table.getD (i / block_size) 0 = 0 ∧ i % block_size = 0) ∧
    (1 ≤ block_table.getD (i / block_size) 0 →
      slot_for block_table block_size i ≠ _PAD_SLOT_ID) := by
  unfold slot_for _PAD_SLOT_ID
  have h1 : block_table.getD (i / block_size) 0 * block_size + i % block_size = 0 ↔
      block_table.getD (i / block_size) 0 = 0 ∧ i % block_size = 0 := by
    constructor
    · intro h
      have h2 : block_table.getD (i / block_size) 0 * block_size = 0 := by omega
      rcases Nat.mul_eq_zero.mp h2 with h3 | h3
      · exact ⟨h3, by omega⟩
      · omega
    · rintro ⟨h3, h4⟩
      rw [h3, h4]
      simp
  refine ⟨h1, fun ha h => ?_⟩
  rw [h1] at h
  omega

theorem pad_slot_sentinel_amended_witness :
    (slot_for [3] 16 5 = _PAD_SLOT_ID ↔
      ([3] : List Nat).getD (5 / 16) 0 = 0 ∧ 5 % 16 = 0) ∧
    (1 ≤ ([3] : List Nat).getD (5 / 16) 0 → slot_for [3] 16 5 ≠ _PAD_SLOT_ID) :=
  pad_slot_sentinel_amended [3] 16 5 (by decide)

/-! ### The capture-budget loop of `warmup_graphs` -/

/-- Graph-capture admission strategies accepted by `warmup_graphs`
(lines 1148-1153); any other strategy name raises `NotImplementedError`
before the loop starts. -/
inductive GraphStrategy
  | min_tokens
  | max_bs

/-- The `max_bs` ordering key `(-b[0], b[1])` (line 1151): descending batch
size, ascending second component. -/
def max_bs_le (a b : Nat × Nat) : Bool :=
  b.1 < a.1 || (a.1 == b.1 && a.2 ≤ b.2)

/-- The capture-budget loop of `warmup_graphs` (lines 1156-1169) over the
sorted candidate list.  State: `total_batch_seq` (initialized to 0.001),
`total_mem` (initialized to 0) and the remaining `available_mem`; Python
floats are modelled as exact rationals.  `batch_seq` is
`batch_size * seq_len` for prompt buckets and `batch_size` for decode
buckets; a candidate is skipped when `mem_estimate >= available_mem`,
otherwise it is captured and the measured device-memory consumption — an
oracle `costs : Nat → Rat` consulted in capture order `k` — is subtracted
from the budget and folded into the running totals.  The returned list
carries `(mem_estimate, used_mem)` for each captured bucket, in admission
order. -/
def warmup_graphs_go (is_prompt : Bool) (costs : Nat → Rat) :
    List (Nat × Nat) → Nat → Rat → Rat → Rat → List (Rat × Rat)
  | [], _, _, _, _ => []
  | b :: rest, k, total_batch_seq, total_mem, available_mem =>
    let batch_seq : Rat := if is_prompt then ((b.1 * b.2 : Nat) : Rat) else ((b.1 : Nat) : Rat)
    let mem_estimate := batch_seq / total_batch_seq * total_mem
    if available_mem ≤ mem_estimate then
      warmup_graphs_go is_prompt costs rest k total_batch_seq total_mem available_mem
    else
      (mem_estimate, costs k) ::
        warmup_graphs_go is_prompt costs rest (k + 1) (total_batch_seq + batch_seq)
          (total_mem + costs k) (available_mem - costs k)

/-- Source `warmup_graphs` (lines 1141-1169): sort the candidate buckets by the
strategy ordering (`min_tokens` uses the `(bs*len, len, bs)` key, `max_bs`
the `(-bs, len)` key), then run the capture-budget loop starting from
`total_batch_seq = 0.001`, `total_mem = 0`. -/
def warmup_graphs (strategy : GraphStrategy) (buckets : List (Nat × Nat))
    (is_prompt : Bool) (costs : Nat → Rat) (available_mem : Rat) : List (Rat × Rat) :=
  match strategy with
  | GraphStrategy.min_tokens =>
      warmup_graphs_go is_prompt costs (sortStable bucket_key_le buckets)
        0 0.001 0 available_mem
  | GraphStrategy.max_bs =>
      warmup_graphs_go is_prompt costs (sortStable max_bs_le buckets)
        0 0.001 0 available_mem

/-- C7 counterexample: with budget 10, prompt buckets `[(1,1), (1,2)]` in
`min_tokens` order and measured capture costs 1 then 100, the loop captures
both buckets (the second estimate, `2/1.001 * 1 < 9`, passes the check) and
the total measured cost 101 exceeds the initial budget — by 100 even after
discounting the bootstrap capture — so the claimed budget bound fails. -/
theorem warmup_graphs_budget_counterexample :
    warmup_graphs GraphStrategy.min_tokens [(1, 1), (1, 2)] true
        (fun k => if k = 0 then 1 else 100) 10 =
      [(0, 1), (2000 / 1001, 100)] ∧
    ((warmup_graphs GraphStrategy.min_tokens [(1, 1), (1, 2)] true
        (fun k => if k = 0 then 1 else 100) 10).map (fun p => p.2)).sum = 101 ∧
    ¬(((warmup_graphs GraphStrategy.min_tokens [(1, 1), (1, 2)] true
        (fun k => if k = 0 then 1 else 100) 10).tail.map (fun p => p.2)).sum ≤ 10) := by
  have hsort : sortStable bucket_key_le [(1, 1), (1, 2)] = [(1, 1), (1, 2)] := by decide
  have hrun : warmup_graphs GraphStrategy.min_tokens [(1, 1), (1, 2)] true
      (fun k => if k = 0 then 1 else 100) 10 = [(0, 1), (2000 / 1001, 100)] := by
    rw [warmup_graphs, hsort]
    norm_num [warmup_graphs_go]
  refine ⟨hrun, ?_, ?_⟩ <;> rw [hrun] <;> norm_num

theorem warmup_graphs_go_budget (is_prompt : Bool) (costs : Nat → Rat) :
    ∀ (l : List (Nat × Nat)) (k : Nat) (tbs tm avail : Rat), 0 ≤ avail →
      (∀ p ∈ warmup_graphs_go is_prompt costs l k tbs tm avail, p.2 ≤ p.1) →
      ((warmup_graphs_go is_prompt costs l k tbs tm avail).map (fun p => p.2)).sum
        ≤ avail := by
  intro l
  induction l with
  | nil =>
    intro k tbs tm avail h0 _
    simpa [warmup_graphs_go] using h0
  | cons b rest ih =>
    intro k tbs tm avail h0 hcost
    simp only [warmup_graphs_go] at hcost ⊢
    by_cases hc : avail ≤
        (if is_prompt then ((b.1 * b.2 : Nat) : Rat) else ((b.1 : Nat) : Rat)) / tbs * tm
    · rw [if_pos hc] at hcost ⊢
      exact ih k tbs tm avail h0 hcost
    · rw [if_neg hc] at hcost ⊢
      push_neg at hc
      have hhead : costs k ≤
          (if is_prompt then ((b.1 * b.2 : Nat) : Rat) else ((b.1 : Nat) : Rat)) / tbs * tm :=
        hcost _ (List.mem_cons_self _ _)
      have h0' : 0 ≤ avail - costs k := by linarith
      have htail := ih (k + 1) _ _ (avail - costs k) h0'
        (fun p hp => hcost p (List.mem_cons_of_mem _ hp))
      simp only [List.map_cons, List.sum_cons]
      linarith

/-- C7 amended: the admission check bounds only the cost *estimate* by the
remaining budget, so the total of the *measured* costs is bounded by the
initial budget only under the additional assumption that no capture's
measured memory cost exceeds the estimate computed for it at admission time
(for a non-negative initial budget); in general the measured total can
exceed the budget by arbitrarily more than the bootstrap capture's cost. -/
theorem warmup_graphs_budget_amended (strategy : GraphStrategy)
    (buckets : List (Nat × Nat)) (is_prompt : Bool) (costs : Nat → Rat)
    (available_mem : Rat) (h0 : 0 ≤ available_mem)
    (hcost : ∀ p ∈ warmup_graphs strategy buckets is_prompt costs available_mem,
      p.2 ≤ p.1) :
    ((warmup_graphs strategy buckets is_prompt costs available_mem).map
      (fun p => p.2)).sum ≤ available_mem := by
  cases strategy with
  | min_tokens =>
    unfold warmup_graphs at hcost ⊢
    exact warmup_graphs_go_budget is_prompt costs _ 0 0.001 0 available_mem h0 hcost
  | max_bs =>
    unfold warmup_graphs at hcost ⊢
    exact warmup_graphs_go_budget is_prompt costs _ 0 0.001 0 available_mem h0 hcost

theorem warmup_graphs_budget_amended_witness :
    ((warmup_graphs GraphStrategy.min_tokens [(1, 1)] true (fun _ => 0) 10).map
      (fun p => p.2)).sum ≤ 10 := by
  refine warmup_graphs_budget_amended GraphStrategy.min_tokens [(1, 1)] true
    (fun _ => 0) 10 (by norm_num) ?_
  have hsort : sortStable bucket_key_le [(1, 1)] = [(1, 1)] := by decide
  unfold warmup_graphs
  rw [hsort]
  norm_num [warmup_graphs_go]

/-! ### `_prepare_prompt` padding -/

/-- The per-group data of a prompt-phase `SequenceGroupMetadata` consumed by
`_prepare_prompt` (lines 441-614).  Each group holds exactly one sequence
(`assert len(seq_ids) == 1`, line 464), so the single sequence's data is
inlined: `token_ids` is `seq_data.get_token_ids()` (prompt plus already
generated tokens, so `seq_data.get_len()` is its length) and `num_computed`
is `seq_data.get_num_computed_tokens()`. -/
structure PromptSeqGroup where
  token_ids : List Nat
  num_computed : Nat
  token_chunk_size : Nat
  computed_block_nums : Option (List Nat)
  block_tables : Option (List Nat)
deriving DecidableEq

/-- The runner configuration read by `_prepare_prompt`. -/
structure PromptRunnerCfg where
  chunked_prefill_enabled : Bool
  sliding_window : Option Nat
  block_size : Nat
  prompt_seq_bucket_cfg : Nat × Nat × Nat
deriving DecidableEq

/-- Source quantity `seq_len = min(seq_data.get_len(), context_len + token_chunk_size)`
(line 481), with `context_len = get_num_computed_tokens()` (line 478). -/
def seq_len_of (g : PromptSeqGroup) : Nat :=
  min g.token_ids.length (g.num_computed + g.token_chunk_size)

/-- Whether the prefix-caching branch (lines 486-491) is taken:
`computed_block_nums is not None and len(computed_block_nums) > 0 and
self.sliding_window is None`. -/
def takes_prefix_caching_branch (cfg : PromptRunnerCfg) (g : PromptSeqGroup) : Bool :=
  g.computed_block_nums.isSome && (g.computed_block_nums.getD []).length != 0 &&
    cfg.sliding_window.isNone

/-- The final value of the loop variable `context_len`: reassigned to
`len(computed_block_nums) * block_size` in the prefix-caching branch
(line 489), otherwise `get_num_computed_tokens()`. -/
def context_len_of (cfg : PromptRunnerCfg) (g : PromptSeqGroup) : Nat :=
  if takes_prefix_caching_branch cfg g then
    (g.computed_block_nums.getD []).length * cfg.block_size
  else g.num_computed

/-- The final `prompt_tokens` row: `get_token_ids()[context_len:seq_len]`
(line 482), further cut to `prompt_tokens[context_len:]` with the
*reassigned* `context_len` in the prefix-caching branch (line 490). -/
def prompt_tokens_of (cfg : PromptRunnerCfg) (g : PromptSeqGroup) : List Nat :=
  if takes_prefix_caching_branch cfg g then
    ((g.token_ids.take (seq_len_of g)).drop g.num_computed).drop (context_len_of cfg g)
  else (g.token_ids.take (seq_len_of g)).drop g.num_computed

/-- Source `input_positions` row: `list(range(context_len, seq_len))` (line 513). -/
def input_positions_row (cfg : PromptRunnerCfg) (g : PromptSeqGroup) : List Nat :=
  List.range' (context_len_of cfg g) (seq_len_of g - context_len_of cfg g)

/-- Source quantity `start_idx = max(0, seq_len - sliding_window)` when sliding-window
attention is active (lines 544-549), 0 otherwise; truncated subtraction
renders the `max(0, ·)`. -/
def start_idx_of (cfg : PromptRunnerCfg) (g : PromptSeqGroup) : Nat :=
  match cfg.sliding_window with
  | some sw => seq_len_of g - sw
  | none => 0

/-- Source `slot_mapping` row (lines 529-558): a dummy all-sentinel row of length
`seq_len` when no block table is assigned (memory-probe mode), otherwise one
slot per position `i` in `range(context_len, seq_len)` — the sentinel below
the sliding-window start index, else
`block_table[i // block_size] * block_size + i % block_size`. -/
def slot_mapping_row (cfg : PromptRunnerCfg) (g : PromptSeqGroup) : List Nat :=
  match g.block_tables with
  | none => List.replicate (seq_len_of g) _PAD_SLOT_ID
  | some bt =>
    (List.range' (context_len_of cfg g) (seq_len_of g - context_len_of cfg g)).map
      (fun i => if i < start_idx_of cfg g then _PAD_SLOT_ID
        else slot_for bt cfg.block_size i)

/-- Source `query_lens` entry `seq_len - context_len` (line 508), over `Int`
because the prefix-caching reassignment can push `context_len` past
`seq_len` in Python. -/
def query_len_of (cfg : PromptRunnerCfg) (g : PromptSeqGroup) : Int :=
  (seq_len_of g : Int) - (context_len_of cfg g : Int)

/-- The per-group `assert`/`raise` paths of the loop body: the
chunked-prefill + prefix-caching `RuntimeError` (lines 468-474), the
`assert context_len == 0` of the plain else-branch (line 504), and the
`assert context_len == 0` under sliding-window attention (line 546, reached
only when a block table is present). -/
def prompt_group_error (cfg : PromptRunnerCfg) (g : PromptSeqGroup) : Bool :=
  (cfg.chunked_prefill_enabled && g.computed_block_nums.isSome &&
    (g.computed_block_nums.getD []).length != 0) ||
  (!takes_prefix_caching_branch cfg g && !cfg.chunked_prefill_enabled &&
    g.num_computed != 0) ||
  (g.block_tables.isSome && cfg.sliding_window.isSome && g.num_computed != 0)

/-- Python `max()` over a list of naturals (total, 0 on the empty list the
source never passes). -/
def list_max (l : List Nat) : Nat := l.foldl max 0

/-- Python `max()` over a list of integers (total, 0 on the empty list the
source never passes). -/
def int_list_max : List Int → Int
  | [] => 0
  | x :: xs => xs.foldl max x

/-- Right-padding of one row to `max_len` entries with the value `pad`. -/
def pad_row (max_len pad : Nat) (row : List Nat) : List Nat :=
  row ++ List.replicate (max_len - row.length) pad

/-- Modelled from the spec: `make_tensor_with_pad` (imported from
`vllm.utils`, whose source is not part of this file) right-pads every row
with the pad value to `max_len` entries — "Output tensors are right-padded
per-sequence" — producing a `len(rows) × max_len` tensor. -/
def make_tensor_with_pad (rows : List (List Nat)) (max_len pad : Nat) :
    List (List Nat) :=
  rows.map (pad_row max_len pad)

/-- The output of `_prepare_prompt` restricted to the padded tensors and the
bookkeeping lists the claims mention. -/
structure PreparePromptOut where
  input_tokens : List (List Nat)
  input_positions : List (List Nat)
  slot_mapping : List (List Nat)
  seq_lens : List Nat
  query_lens : List Int
deriving DecidableEq

/-- Source `_prepare_prompt` (lines 441-614) restricted to the token, position and
slot-mapping tensors plus `seq_lens`/`query_lens`.  An empty input returns
`PreparePromptMetadata.empty()` (lines 458-459); the per-group
`assert`/`raise` paths and the `assert max_query_len > 0` (line 561) become
`Except.error`; on success each row list is right-padded to
`max_prompt_len = max(find_bucket(max(seq_lens), prompt_seq_bucket_cfg),
block_size)` (lines 572-590).  LoRA bookkeeping, multi-modal inputs and the
attention-metadata object are not consumed by the modelled claims and are
omitted; out-of-range block-table indexing (a Python `IndexError`) is
modelled by `slot_for`'s default value. -/
def _prepare_prompt (cfg : PromptRunnerCfg) (l : List PromptSeqGroup) :
    Except String PreparePromptOut :=
  if l = [] then
    Except.ok ⟨[], [], [], [], []⟩
  else if l.any (prompt_group_error cfg) then
    Except.error "assert/raise in _prepare_prompt loop body"
  else if ¬(0 < int_list_max (l.map (query_len_of cfg))) then
    Except.error "assert max_query_len > 0"
  else
    Except.ok
      { input_tokens := make_tensor_with_pad (l.map (prompt_tokens_of cfg))
          (max (find_bucket (list_max (l.map seq_len_of)) cfg.prompt_seq_bucket_cfg)
            cfg.block_size) 0
        input_positions := make_tensor_with_pad (l.map (input_positions_row cfg))
          (max (find_bucket (list_max (l.map seq_len_of)) cfg.prompt_seq_bucket_cfg)
            cfg.block_size) 0
        slot_mapping := make_tensor_with_pad (l.map (slot_mapping_row cfg))
          (max (find_bucket (list_max (l.map seq_len_of)) cfg.prompt_seq_bucket_cfg)
            cfg.block_size) _PAD_SLOT_ID
        seq_lens := l.map seq_len_of
        query_lens := l.map (query_len_of cfg) }

theorem le_foldl_max (l : List Nat) : ∀ init : Nat, init ≤ l.foldl max init := by
  induction l with
  | nil => intro init; simp
  | cons x xs ih =>
    intro init
    exact le_trans (le_max_left _ _) (ih (max init x))

theorem mem_le_foldl_max (l : List Nat) :
    ∀ (init a : Nat), a ∈ l → a ≤ l.foldl max init := by
  induction l with
  | nil => intro init a ha; simp at ha
  | cons x xs ih =>
    intro init a ha
    rcases List.mem_cons.mp ha with rfl | ha'
    · exact le_trans (le_max_right _ _) (le_foldl_max xs _)
    · exact ih _ a ha'

theorem pad_row_length (max_len pad : Nat) (row : List Nat)
    (h : row.length ≤ max_len) : (pad_row max_len pad row).length = max_len := by
  simp only [pad_row, List.length_append, List.length_replicate]
  omega

theorem prompt_tokens_of_length_le (cfg : PromptRunnerCfg) (g : PromptSeqGroup) :
    (prompt_tokens_of cfg g).length ≤ seq_len_of g := by
  unfold prompt_tokens_of
  by_cases h : takes_prefix_caching_branch cfg g = true
  · rw [if_pos h]
    simp only [List.length_drop, List.length_take, seq_len_of]
    omega
  · rw [if_neg h]
    simp only [List.length_drop, List.length_take, seq_len_of]
    omega

theorem input_positions_row_length_le (cfg : PromptRunnerCfg) (g : PromptSeqGroup) :
    (input_positions_row cfg g).length ≤ seq_len_of g := by
  simp only [input_positions_row, List.length_range']
  omega

theorem slot_mapping_row_length_le (cfg : PromptRunnerCfg) (g : PromptSeqGroup) :
    (slot_mapping_row cfg g).length ≤ seq_len_of g := by
  unfold slot_mapping_row
  match hbt : g.block_tables with
  | none => simp
  | some bt =>
    simp only [List.length_map, List.length_range']
    omega

/-- C8: whenever `_prepare_prompt` returns normally on a non-empty prompt
batch (with a well-formed length config: `min ≥ 1`, `step ≥ 1`), every
per-sequence row of the token, position and slot-mapping outputs has exactly
`max(find_bucket(max(seq_lens), prompt_seq_bucket_cfg), block_size)`
entries; in particular that padded width is at least one cache block. -/
theorem prepare_prompt_padding (cfg : PromptRunnerCfg) (l : List PromptSeqGroup)
    (out : PreparePromptOut) (hl : l ≠ [])
    (hmin : 1 ≤ cfg.prompt_seq_bucket_cfg.1)
    (hstep : 1 ≤ cfg.prompt_seq_bucket_cfg.2.1)
    (hok : _prepare_prompt cfg l = Except.ok out) :
    (∀ row ∈ out.input_tokens, row.length =
      max (find_bucket (list_max (l.map seq_len_of)) cfg.prompt_seq_bucket_cfg)
        cfg.block_size) ∧
    (∀ row ∈ out.input_positions, row.length =
      max (find_bucket (list_max (l.map seq_len_of)) cfg.prompt_seq_bucket_cfg)
        cfg.block_size) ∧
    (∀ row ∈ out.slot_mapping, row.length =
      max (find_bucket (list_max (l.map seq_len_of)) cfg.prompt_seq_bucket_cfg)
        cfg.block_size) ∧
    cfg.block_size ≤
      max (find_bucket (list_max (l.map seq_len_of)) cfg.prompt_seq_bucket_cfg)
        cfg.block_size := by
  have hbound : ∀ g ∈ l, seq_len_of g ≤
      max (find_bucket (list_max (l.map seq_len_of)) cfg.prompt_seq_bucket_cfg)
        cfg.block_size := by
    intro g hg
    have h1 : seq_len_of g ≤ list_max (l.map seq_len_of) :=
      mem_le_foldl_max _ 0 _ (List.mem_map_of_mem _ hg)
    have h2 : list_max (l.map seq_len_of) ≤
        find_bucket (list_max (l.map seq_len_of)) cfg.prompt_seq_bucket_cfg :=
      le_find_bucket _ cfg.prompt_seq_bucket_cfg.1 cfg.prompt_seq_bucket_cfg.2.1
        cfg.prompt_seq_bucket_cfg.2.2 hmin hstep
    exact le_trans (le_trans h1 h2) (le_max_left _ _)
  unfold _prepare_prompt at hok
  rw [if_neg hl] at hok
  by_cases herr : l.any (prompt_group_error cfg) = true
  · rw [if_pos herr] at hok
    exact absurd hok (by simp)
  · rw [if_neg herr] at hok
    by_cases hq : ¬(0 < int_list_max (l.map (query_len_of cfg)))
    · rw [if_pos hq] at hok
      exact absurd hok (by simp)
    · rw [if_neg hq] at hok
      simp only [Except.ok.injEq] at hok
      subst hok
      refine ⟨?_, ?_, ?_, le_max_right _ _⟩
      · intro row hrow
        simp only [make_tensor_with_pad, List.map_map, List.mem_map] at hrow
        obtain ⟨g, hg, rfl⟩ := hrow
        exact pad_row_length _ _ _
          (le_trans (prompt_tokens_of_length_le cfg g) (hbound g hg))
      · intro row hrow
        simp only [make_tensor_with_pad, List.map_map, List.mem_map] at hrow
        obtain ⟨g, hg, rfl⟩ := hrow
        exact pad_row_length _ _ _
          (le_trans (input_positions_row_length_le cfg g) (hbound g hg))
      · intro row hrow
        simp only [make_tensor_with_pad, List.map_map, List.mem_map] at hrow
        obtain ⟨g, hg, rfl⟩ := hrow
        exact pad_row_length _ _ _
          (le_trans (slot_mapping_row_length_le cfg g) (hbound g hg))

theorem prepare_prompt_padding_witness :
    ([5, 6, 7, 0] : List Nat).length =
      max (find_bucket
        (list_max ([PromptSeqGroup.mk [5, 6, 7] 0 3 none (some [2])].map seq_len_of))
        (PromptRunnerCfg.mk false none 4 (4, 4, 64)).prompt_seq_bucket_cfg)
        (PromptRunnerCfg.mk false none 4 (4, 4, 64)).block_size :=
  (prepare_prompt_padding (PromptRunnerCfg.mk false none 4 (4, 4, 64))
    [PromptSeqGroup.mk [5, 6, 7] 0 3 none (some [2])]
    (PreparePromptOut.mk [[5, 6, 7, 0]] [[0, 1, 2, 0]] [[8, 9, 10, 0]] [3] [3])
    (by decide) (by decide) (by decide) (by rfl)).1 [5, 6, 7, 0] (by decide)

